import Mathlib

/-!
Verification of the Azure cloud-provider slice (azure_backoff.go, azure_vmss.go)
against its natural-language specification.  Go code is shallowly embedded:
pointers become Option, Go multi-returns become tuples, machine integers become
Int/Nat, errors become an explicit GoError type, and the Azure/network
environment (SDK call outcomes, cache refresh outcomes) is passed explicitly.
-/

namespace AzureCP

/-- Errors observable in the embedded code.  Sentinel errors that the code
compares by identity (ErrorNotVmssInstance, cloudprovider.InstanceNotFound,
wait.ErrWaitTimeout) are constructors; fmt.Errorf results are the remaining
constructors (their message text is irrelevant to every claim). -/
inductive GoError where
  | notVmssInstance        -- ErrorNotVmssInstance (azure_vmss.go)
  | instanceNotFound       -- cloudprovider.InstanceNotFound
  | waitTimeout            -- wait.ErrWaitTimeout (k8s.io/apimachinery)
  | primaryNICNotFound     -- "failed to find a primary network configuration ..."
  | primaryIPConfigNotFound  -- "failed to find a primary IP configuration"
  | ipFamilyConfigNotFound -- "failed to find a  IPconfiguration(IPv6=%v) ..."
  | other (s : String)     -- any other error coming from the environment
deriving DecidableEq

/-- strings.EqualFold, modelled at character level (ASCII case folding; all the
identifiers compared in the claims' code paths are ASCII Azure resource IDs). -/
def equalFold (a b : String) : Bool :=
  a.data.map Char.toLower == b.data.map Char.toLower

/-- One digit of strconv.ParseUint for base 36: '0'-'9', 'a'-'z', 'A'-'Z'
(Go lower-cases letter bytes; every letter value 10..35 is below the base). -/
def digitVal36 (c : Char) : Option Nat :=
  if '0' ≤ c ∧ c ≤ '9' then some (c.toNat - '0'.toNat)
  else if 'a' ≤ c ∧ c ≤ 'z' then some (c.toNat - 'a'.toNat + 10)
  else if 'A' ≤ c ∧ c ≤ 'Z' then some (c.toNat - 'A'.toNat + 10)
  else none

/-- The digit-accumulation loop of strconv.ParseUint, base 36. -/
def parseBase36Digits (cs : List Char) : Option Nat :=
  cs.foldl (fun acc c => acc.bind fun n => (digitVal36 c).map fun d => n * 36 + d) (some 0)

/-- strconv.ParseUint(s, 36, 64): error on the empty string, on any non-digit
character and on 64-bit overflow, the exact value otherwise. -/
def parseUint36 (s : String) : Option Nat :=
  if s.data.isEmpty then none
  else (parseBase36Digits s.data).bind fun n => if n < 2 ^ 64 then some n else none

/-- The base-36 value of a digit string (claim-side companion of
parseBase36Digits, for digit lists that are all valid). -/
def base36Value (cs : List Char) : Nat :=
  cs.foldl (fun n c => n * 36 + (digitVal36 c).getD 0) 0

/-- getScaleSetVMInstanceID (azure_vmss.go): machine names end in a fixed-width
6-character base-36 instance ID.  Go indexes bytes; this embedding indexes
characters (identical on the ASCII node names Kubernetes allows). -/
def getScaleSetVMInstanceID (machineName : String) : Except GoError String :=
  let nameLength := machineName.length
  if nameLength < 6 then .error .notVmssInstance
  else
    match parseUint36 (String.mk (machineName.data.drop (nameLength - 6))) with
    | none => .error .notVmssInstance
    | some instanceID => .ok (toString instanceID)

/-! ## azure_backoff.go -/

/-- The only field of autorest.Response the retry logic reads. -/
structure ARResponse where
  statusCode : Int
deriving DecidableEq

/-- isSuccessHTTPResponse (azure_backoff.go). -/
def isSuccessHTTPResponse (resp : ARResponse) : Bool :=
  199 < resp.statusCode && resp.statusCode < 300

/-- shouldRetryAPIRequest (azure_backoff.go). -/
def shouldRetryAPIRequest (resp : ARResponse) (err : Option GoError) : Bool :=
  if err.isSome then true
  else 399 < resp.statusCode && resp.statusCode < 600

/-- processRetryResponse (azure_backoff.go): the wait.ConditionFunc used by the
*WithRetry wrappers. -/
def processRetryResponse (resp : ARResponse) (err : Option GoError) : Bool × Option GoError :=
  if isSuccessHTTPResponse resp then (true, none)
  else if shouldRetryAPIRequest resp err then (false, none)
  else (true, err)

/-- wait.Backoff.  Only the fields the embedded code reads are modelled; the
float64 fields Factor and Jitter shape sleep durations only, which no claim
mentions. -/
structure Backoff where
  duration : Int := 0
  steps : Int := 0
deriving DecidableEq

/-- The configuration fields of the Cloud struct that azure_backoff.go reads. -/
structure CloudConfig where
  cloudProviderBackoff : Bool
  resourceRequestBackoff : Backoff
deriving DecidableEq

/-- requestBackoff (azure_backoff.go): the composite-literal branch sets Steps
to 1 and leaves every other field at its zero value. -/
def requestBackoff (az : CloudConfig) : Backoff :=
  if az.cloudProviderBackoff then az.resourceRequestBackoff
  else { steps := 1 }

/-- Modelled from the spec: wait.ExponentialBackoff from k8s.io/apimachinery is
not under src/ ("the retry logic is a generic exponential backoff loop reused
verbatim across dozens of call sites").  It invokes the condition up to Steps
times, stopping with the condition's error as soon as it is non-nil, with nil
as soon as the condition reports done, and with wait.ErrWaitTimeout when the
steps are exhausted.  cond i is the outcome (done, err) of invocation i; the
result is paired with the number of invocations performed.  Sleeping between
attempts is timing behavior no claim depends on. -/
def expBackoffFrom (cond : Nat → Bool × Option GoError) : Nat → Nat → Option GoError × Nat
  | i, 0 => (some .waitTimeout, i)
  | i, rem + 1 =>
    let r := cond i
    if r.2.isSome || r.1 then (r.2, i + 1)
    else expBackoffFrom cond (i + 1) rem

/-- Modelled from the spec: entry point of the backoff loop (see expBackoffFrom);
a non-positive Steps value runs the loop body zero times. -/
def exponentialBackoff (b : Backoff) (cond : Nat → Bool × Option GoError) :
    Option GoError × Nat :=
  expBackoffFrom cond 0 b.steps.toNat

/-- GetVirtualMachineWithRetry (azure_backoff.go).  The environment is the
sequence of az.getVirtualMachine outcomes: attempts i is the error of call i
(none = success).  The condition suppresses the error (returns false, nil) so
the loop continues; afterwards wait.ErrWaitTimeout is replaced by retryErr,
the error recorded by the most recent attempt (nil when no attempt ran). -/
def GetVirtualMachineWithRetry (az : CloudConfig) (attempts : Nat → Option GoError) :
    Option GoError :=
  let r := exponentialBackoff (requestBackoff az) fun i => ((attempts i).isNone, none)
  let retryErr := match r.2 with
    | 0 => none
    | n + 1 => attempts n
  if r.1 = some .waitTimeout then retryErr else r.1

/-! ### ListLBWithRetry (azure_backoff.go)

Each fetch is wrapped in wait.ExponentialBackoff, but the condition functions
stop the loop on their first invocation whatever happens: they return
(true, nil) on success and (false, retryErr) with retryErr non-nil on failure,
and the loop stops as soon as the condition yields ok or a non-nil error.  So
with Steps ≥ 1 every wrapped fetch performs exactly one SDK call (the theorem
expBackoffFrom_first_stop below); the environment is therefore one outcome per
fetch: the first LoadBalancerClient.List result, then one outcome per
resultPage.Next() call. -/

/-- network.LoadBalancer; only identity matters to the claims. -/
structure LoadBalancer where
  name : Option String := none
deriving DecidableEq

/-- network.LoadBalancerListResult: one page of the LB listing. -/
structure LBListResult where
  value : Option (List LoadBalancer) := none
  nextLink : Option String := none
deriving DecidableEq

/-- Outcome of one page fetch (initial List or a NextLink-following Next). -/
inductive FetchOutcome where
  | ok (page : LBListResult)
  | fail (e : GoError)
deriving DecidableEq

/-- The page-accumulation loop of ListLBWithRetry: appendResults is true while
the current page has a non-nil, non-empty Value; a present NextLink triggers
the next fetch, whose failure returns the LBs accumulated so far with the
error.  nexts lists the successive Next() outcomes; none means the loop needed
a fetch beyond the outcomes supplied (the Go loop would keep following an
endless chain, which a finite environment cannot describe). -/
def listLBLoop : List FetchOutcome → List LoadBalancer → LBListResult →
    Option (List LoadBalancer × Option GoError)
  | [], allLBs, result =>
    match result.value with
    | none => some (allLBs, none)
    | some [] => some (allLBs, none)
    | some vs =>
      match result.nextLink with
      | none => some (allLBs ++ vs, none)
      | some _ => none
  | o :: rest, allLBs, result =>
    match result.value with
    | none => some (allLBs, none)
    | some [] => some (allLBs, none)
    | some vs =>
      match result.nextLink with
      | none => some (allLBs ++ vs, none)
      | some _ =>
        match o with
        | .fail e => some (allLBs ++ vs, some e)
        | .ok page => listLBLoop rest (allLBs ++ vs) page

/-- ListLBWithRetry (azure_backoff.go): first is the LoadBalancerClient.List
outcome, nexts the successive resultPage.Next() outcomes. -/
def ListLBWithRetry (first : FetchOutcome) (nexts : List FetchOutcome) :
    Option (List LoadBalancer × Option GoError) :=
  match first with
  | .fail e => some ([], some e)
  | .ok page => listLBLoop nexts [] page

/-- Follows the claim's words, for comparison with ListLBWithRetry: the
concatenation, in order, of the Value entries of the first page and of every
subsequent page reached by following NextLink, stopping at a page with a nil
or empty Value or without NextLink; a failed fetch returns the entries
accumulated so far together with that error. -/
def lbPagesSpec : List FetchOutcome → LBListResult →
    Option (List LoadBalancer × Option GoError)
  | [], page =>
    match page.value with
    | none => some ([], none)
    | some [] => some ([], none)
    | some vs =>
      match page.nextLink with
      | none => some (vs, none)
      | some _ => none
  | o :: rest, page =>
    match page.value with
    | none => some ([], none)
    | some [] => some ([], none)
    | some vs =>
      match page.nextLink with
      | none => some (vs, none)
      | some _ =>
        match o with
        | .fail e => some (vs, some e)
        | .ok q => (lbPagesSpec rest q).map fun r => (vs ++ r.1, r.2)

/-- Claim-side counterpart of ListLBWithRetry (see lbPagesSpec); a failed
initial List returns a nil slice and the error. -/
def ListLBWithRetrySpec (first : FetchOutcome) (nexts : List FetchOutcome) :
    Option (List LoadBalancer × Option GoError) :=
  match first with
  | .fail e => some ([], some e)
  | .ok page => lbPagesSpec nexts page

/-! ## azure_vmss.go: data model -/

/-- compute.SubResource (a backend-pool reference on an IP configuration). -/
structure SubResource where
  id : Option String := none
deriving DecidableEq

/-- compute.VirtualMachineScaleSetIPConfiguration, the fields read by the
claims' code paths.  PrivateIPAddressVersion is the string enum
compute.IPVersion ("IPv4" / "IPv6", zero value ""). -/
structure VMSSIPConfiguration where
  primary : Option Bool := none
  privateIPAddressVersion : String := ""
  loadBalancerBackendAddressPools : Option (List SubResource) := none
deriving DecidableEq

/-- compute.VirtualMachineScaleSetNetworkConfiguration.  IPConfigurations is a
*[] in the SDK, but every code path of the claims dereferences it
unconditionally (a nil pointer would panic), so the dereferenced list is
embedded. -/
structure VMSSNetworkConfiguration where
  primary : Option Bool := none
  ipConfigurations : List VMSSIPConfiguration := []
deriving DecidableEq

/-- compute.InstanceViewStatus. -/
structure InstanceViewStatus where
  code : Option String := none
deriving DecidableEq

/-- compute.VirtualMachineScaleSetVMInstanceView. -/
structure VMSSVMInstanceView where
  statuses : Option (List InstanceViewStatus) := none
deriving DecidableEq

/-- compute.VirtualMachineScaleSetVM, the fields the claims read.
networkInterfaceConfigurations embeds
vm.NetworkProfileConfiguration.NetworkInterfaceConfigurations. -/
structure VMSSVM where
  instanceView : Option VMSSVMInstanceView := none
  networkInterfaceConfigurations : Option (List VMSSNetworkConfiguration) := none
deriving DecidableEq

/-- vmssVirtualMachinesEntry: the fields the getVmssVM getter reads from the
per-node entry of the map cached under vmssVirtualMachinesKey. -/
structure VMSSVMEntry where
  vmssName : String
  instanceID : String
  virtualMachine : Option VMSSVM
deriving DecidableEq

/-- The sync.Map cached under vmssVirtualMachinesKey, as an association list. -/
abbrev NodeMap := List (String × VMSSVMEntry)

/-- sync.Map.Load: exact-key lookup. -/
def mapLoad (m : NodeMap) (k : String) : Option VMSSVMEntry :=
  (m.find? fun p => p.1 == k).map (·.2)

/-- The configuration predicates of the scaleSet receiver that the claims'
code paths consult: ss.useStandardLoadBalancer() and the IPv6DualStack
feature gate. -/
structure SSEnv where
  useStandardLoadBalancer : Bool
  ipv6DualStackEnabled : Bool
deriving DecidableEq

/-- getPrimaryNetworkInterfaceConfiguration (azure_vmss.go): a single
configuration is primary by default, otherwise the first one whose Primary
flag is a non-nil true. -/
def getPrimaryNetworkInterfaceConfiguration (networkConfigurations : List VMSSNetworkConfiguration) :
    Except GoError VMSSNetworkConfiguration :=
  match networkConfigurations with
  | [config] => .ok config
  | configs =>
    match configs.find? fun c => c.primary == some true with
    | some config => .ok config
    | none => .error .primaryNICNotFound

/-- getPrimaryIPConfigFromVMSSNetworkConfig (azure_vmss.go). -/
def getPrimaryIPConfigFromVMSSNetworkConfig (config : VMSSNetworkConfiguration) :
    Except GoError VMSSIPConfiguration :=
  match config.ipConfigurations with
  | [ipConfig] => .ok ipConfig
  | ipConfigs =>
    match ipConfigs.find? fun c => c.primary == some true with
    | some ipConfig => .ok ipConfig
    | none => .error .primaryIPConfigNotFound

/-- getConfigForScaleSetByIPFamily (azure_vmss.go): picks the first IP
configuration of the requested IP family. -/
def getConfigForScaleSetByIPFamily (config : VMSSNetworkConfiguration) (ipv6 : Bool) :
    Except GoError VMSSIPConfiguration :=
  let ipVersion := if ipv6 then "IPv6" else "IPv4"
  match config.ipConfigurations.find? fun c => c.privateIPAddressVersion == ipVersion with
  | some ipConfig => .ok ipConfig
  | none => .error .ipFamilyConfigNotFound

/-! ## azure_vmss.go: operations -/

/-- getVmssVM (azure_vmss.go).  The timedCache (azure_cache.go, not under
src/) is modelled from the spec: "a simple refresh-on-miss cache" / "a
single-entry, delete-and-refetch pattern" — Get returns the data stored under
the key, running the cached getter to populate it when the key is absent, and
Delete removes the key.  st0 is the data under vmssVirtualMachinesKey (none =
key absent); refresh k is the outcome of run k of the cached getter (the
listing that rebuilds the node map).  The result mirrors the Go multi-return
(vmssName, instanceID, vm, error) and is paired with how many times the
cached getter ran. -/
def getVmssVM (nodeName : String) (st0 : Option NodeMap)
    (refresh : Nat → Except GoError NodeMap) :
    (String × String × Option VMSSVM × Option GoError) × Nat :=
  match getScaleSetVMInstanceID nodeName with
  | .error e => (("", "", none, some e), 0)
  | .ok _ =>
    -- getter call 1: timedCache.Get runs the cached getter only on an absent key
    let fetch1 : Except GoError NodeMap × Nat :=
      match st0 with
      | some m => (.ok m, 0)
      | none => (refresh 0, 1)
    match fetch1 with
    | (.error e, n1) => (("", "", none, some e), n1)
    | (.ok m1, n1) =>
      -- the inner getter reports a hit only when the loaded entry has a non-nil VM
      match (mapLoad m1 nodeName).bind fun entry =>
          entry.virtualMachine.map fun vm => (entry.vmssName, entry.instanceID, vm) with
      | some (ssName, instanceID, vm) => ((ssName, instanceID, some vm, none), n1)
      | none =>
        -- ss.vmssVMCache.Delete(vmssVirtualMachinesKey), then getter call 2:
        -- the key is now absent, so the cached getter runs again
        match refresh n1 with
        | .error e => (("", "", none, some e), n1 + 1)
        | .ok m2 =>
          match (mapLoad m2 nodeName).bind fun entry =>
              entry.virtualMachine.map fun vm => (entry.vmssName, entry.instanceID, vm) with
          | some (ssName, instanceID, vm) => ((ssName, instanceID, some vm, none), n1 + 1)
          | none => (("", "", none, some .instanceNotFound), n1 + 1)

/-- Modelled from the spec: the constant vmPowerStatePrefix of
azure_standard.go (not under src/) — the marker that instance-view status
codes carrying the VM power state start with. -/
def vmPowerStatePfx : String := "PowerState/"

/-- Modelled from the spec: the constant vmPowerStateStopped of
azure_standard.go (not under src/). -/
def vmPowerStateStopped : String := "stopped"

/-- The status scan of GetPowerStatusByNodeName: the first status whose code
(to.String reads a nil pointer as "") starts with the power-state marker,
with that marker stripped (strings.TrimPrefix). -/
def findPowerState : List InstanceViewStatus → Option String
  | [] => none
  | status :: rest =>
    let state := status.code.getD ""
    if vmPowerStatePfx.data.isPrefixOf state.data then
      some (state.drop vmPowerStatePfx.length)
    else findPowerState rest

/-- GetPowerStatusByNodeName (azure_vmss.go), over the same cache environment
as getVmssVM. -/
def GetPowerStatusByNodeName (name : String) (st0 : Option NodeMap)
    (refresh : Nat → Except GoError NodeMap) : String × Option GoError :=
  match (getVmssVM name st0 refresh).1 with
  | (_, _, _, some e) => ("", some e)
  | (_, _, none, none) => ("", none)  -- unreachable: getVmssVM never succeeds with a nil VM
  | (_, _, some vm, none) =>
    match vm.instanceView with
    | none => (vmPowerStateStopped, none)
    | some instanceView =>
      match instanceView.statuses with
      | none => (vmPowerStateStopped, none)
      | some statuses =>
        match findPowerState statuses with
        | some state => (state, none)
        | none => (vmPowerStateStopped, none)

/-- The effect of EnsureHostInPool / ensureBackendPoolDeletedFromNode on the
scale-set VM: either no VirtualMachineScaleSetVMsClient.Update is issued, or
one is, carrying the new LoadBalancerBackendAddressPools list of the primary
IP configuration. -/
inductive UpdateAction where
  | noUpdate
  | update (newPools : List SubResource)
deriving DecidableEq

/-- EnsureHostInPool (azure_vmss.go), after the getVmssVM lookup: ssName and
vm are the looked-up scale-set name and VM.  isBackendPoolOnSameLB lives in
azure_standard.go (not under src/) and is passed as the environment parameter
sameLB (its arguments: the new backend-pool ID and the IDs of the existing
pools; its results: whether the pool is on the same load balancer, and the
other LB's name).  The pool-scan loop dereferences *existingPool.ID
unconditionally; a nil ID (which would panic in Go) is read as "".
A .ok .noUpdate result is the Go "return nil" without any VM update; a
.ok (.update pools) result is the VM update call with the new pool list (its
own Azure-side error is environment the claims do not mention). -/
def EnsureHostInPool (env : SSEnv) (svcClusterIPIsIPv6 : Bool)
    (ssName : String) (vm : VMSSVM) (backendPoolID vmSetName : String)
    (sameLB : String → List String → Except GoError (Bool × String)) :
    Except GoError UpdateAction :=
  if vmSetName ≠ "" ∧ ¬env.useStandardLoadBalancer ∧ ¬(equalFold vmSetName ssName) then
    .ok .noUpdate
  else
    match vm.networkInterfaceConfigurations with
    | none => .ok .noUpdate
    | some networkInterfaceConfigurations =>
      match getPrimaryNetworkInterfaceConfiguration networkInterfaceConfigurations with
      | .error e => .error e
      | .ok primaryNIC =>
        let ipCfg : Except GoError VMSSIPConfiguration :=
          if ¬env.ipv6DualStackEnabled then getPrimaryIPConfigFromVMSSNetworkConfig primaryNIC
          else getConfigForScaleSetByIPFamily primaryNIC svcClusterIPIsIPv6
        match ipCfg with
        | .error e => .error e
        | .ok primaryIPConfiguration =>
          let newBackendPools := primaryIPConfiguration.loadBalancerBackendAddressPools.getD []
          let foundPool := newBackendPools.any fun p => equalFold backendPoolID (p.id.getD "")
          if foundPool then .ok .noUpdate
          else
            if env.useStandardLoadBalancer ∧ 0 < newBackendPools.length then
              match sameLB backendPoolID (newBackendPools.filterMap (·.id)) with
              | .error e => .error e
              | .ok (isSameLB, _oldLBName) =>
                if ¬isSameLB then .ok .noUpdate
                else .ok (.update (newBackendPools ++ [{ id := some backendPoolID }]))
            else .ok (.update (newBackendPools ++ [{ id := some backendPoolID }]))

/-- One Go statement newBackendPools = append(existingBackendPools[:i],
existingBackendPools[i+1:]...) on the slice over the backing array arr (length
kept ≥ the slice length, so append writes in place): positions i..len-2 shift
left by one and the last position keeps its old element; the slice header of
existingBackendPools still covers all len positions. -/
def sliceRemoveAt (arr : List SubResource) (i : Nat) : List SubResource :=
  arr.take i ++ arr.drop (i + 1) ++ arr.getLast?.toList

/-- The removal loop of ensureBackendPoolDeletedFromNode, iterating i from
len-1 down to 0 over the (mutated-in-place) backing array; the first argument
is i+1 for the next index i to process.  Returns the final backing array and
the foundPool flag. -/
def goDeleteLoop (backendPoolID : String) : Nat → List SubResource → Bool →
    List SubResource × Bool
  | 0, arr, found => (arr, found)
  | n + 1, arr, found =>
    if equalFold backendPoolID ((arr[n]?.bind (·.id)).getD "") then
      goDeleteLoop backendPoolID n (sliceRemoveAt arr n) true
    else
      goDeleteLoop backendPoolID n arr found

/-- ensureBackendPoolDeletedFromNode (azure_vmss.go), after the getVmssVM
lookup.  When the loop matched at least once, the final newBackendPools is the
last append result: the first len-1 positions of the final backing array. -/
def ensureBackendPoolDeletedFromNode (vm : VMSSVM) (backendPoolID : String) :
    Except GoError UpdateAction :=
  match vm.networkInterfaceConfigurations with
  | none => .ok .noUpdate
  | some networkInterfaceConfigurations =>
    match getPrimaryNetworkInterfaceConfiguration networkInterfaceConfigurations with
    | .error e => .error e
    | .ok primaryNIC =>
      match getPrimaryIPConfigFromVMSSNetworkConfig primaryNIC with
      | .error e => .error e
      | .ok primaryIPConfiguration =>
        match primaryIPConfiguration.loadBalancerBackendAddressPools with
        | none => .ok .noUpdate
        | some existingBackendPools =>
          if existingBackendPools.isEmpty then .ok .noUpdate
          else
            let r := goDeleteLoop backendPoolID existingBackendPools.length
              existingBackendPools false
            if r.2 then .ok (.update (r.1.take (existingBackendPools.length - 1)))
            else .ok .noUpdate

/-- network.BackendAddressPoolPropertiesFormat.BackendIPConfigurations entry;
only its ID is read. -/
structure BackendIPConfigurationRef where
  id : Option String := none
deriving DecidableEq

/-- network.BackendAddressPool, the fields EnsureBackendPoolDeleted reads. -/
structure BackendAddressPool where
  id : Option String := none
  backendIPConfigurations : Option (List BackendIPConfigurationRef) := none
deriving DecidableEq

/-- The scaleset-collection pass of EnsureBackendPoolDeleted: the first pool
whose ID (dereferenced unconditionally; nil read as "") matches poolID
case-insensitively and whose BackendIPConfigurations is non-nil contributes
the scale-set names extracted from its IP-configuration IDs (nil IDs and
extraction failures are skipped), then the loop breaks.  extract is
extractScaleSetNameByProviderID, whose regex engine is environment here.
sets.String deduplicates; insertion order stands in for Go's unspecified map
iteration order, on which no claim depends. -/
def collectPoolScaleSets (extract : String → Except GoError String) (poolID : String) :
    List BackendAddressPool → List String
  | [] => []
  | pool :: rest =>
    if equalFold (pool.id.getD "") poolID ∧ pool.backendIPConfigurations ≠ none then
      (pool.backendIPConfigurations.getD []).foldl (fun acc ipc =>
        match ipc.id with
        | none => acc
        | some s =>
          match extract s with
          | .error _ => acc
          | .ok ssName => if ssName ∈ acc then acc else acc ++ [ssName]) []
    else collectPoolScaleSets extract poolID rest

/-- The per-scaleset loop of EnsureBackendPoolDeleted: basic-LB configurations
skip scale sets other than vmSetName; deleteFn is
ensureScaleSetBackendPoolDeleted (later in azure_vmss.go, environment for this
claim); the first failure is returned.  The second component records which
scale sets were operated on. -/
def ensureLoop (env : SSEnv) (vmSetName : String) (deleteFn : String → Option GoError) :
    List String → List String → Option GoError × List String
  | [], invoked => (none, invoked)
  | ssName :: rest, invoked =>
    if ¬env.useStandardLoadBalancer ∧ ¬(equalFold ssName vmSetName) then
      ensureLoop env vmSetName deleteFn rest invoked
    else
      match deleteFn ssName with
      | some e => (some e, invoked ++ [ssName])
      | none => ensureLoop env vmSetName deleteFn rest (invoked ++ [ssName])

/-- EnsureBackendPoolDeleted (azure_vmss.go).  Returns the Go error result
paired with the scale sets on which ensureScaleSetBackendPoolDeleted was
invoked (empty = no lookups, no updates). -/
def EnsureBackendPoolDeleted (env : SSEnv) (poolID vmSetName : String)
    (backendAddressPools : Option (List BackendAddressPool))
    (extract : String → Except GoError String)
    (deleteFn : String → Option GoError) : Option GoError × List String :=
  match backendAddressPools with
  | none => (none, [])
  | some pools =>
    ensureLoop env vmSetName deleteFn (collectPoolScaleSets extract poolID pools) []

/-! ## Helper lemmas -/

/-- A condition that stops on every invocation (non-nil error or done) makes
wait.ExponentialBackoff with positive Steps perform exactly one invocation and
return that invocation's error: this is why one outcome per wrapped fetch
suffices as the environment of the paging loops. -/
theorem expBackoffFrom_first_stop (cond : Nat → Bool × Option GoError)
    (h : ∀ i, (cond i).2.isSome = true ∨ (cond i).1 = true) :
    ∀ rem i, 0 < rem → expBackoffFrom cond i rem = ((cond i).2, i + 1) := by
  intro rem i hrem
  cases rem with
  | zero => omega
  | succ n =>
    show (if (cond i).2.isSome || (cond i).1 then ((cond i).2, i + 1)
          else expBackoffFrom cond (i + 1) n) = ((cond i).2, i + 1)
    rcases h i with h' | h' <;> simp [h']

/-- A fold of the ParseUint digit loop from a dead accumulator stays dead. -/
theorem parseFold_none (cs : List Char) :
    cs.foldl (fun acc c => acc.bind fun n => (digitVal36 c).map fun d => n * 36 + d) none
      = none := by
  induction cs with
  | nil => rfl
  | cons c cs ih => simpa using ih

/-- On all-valid digits the ParseUint loop computes the plain base-36 fold. -/
theorem parseFold_valid :
    ∀ (cs : List Char) (n : Nat), (∀ c ∈ cs, (digitVal36 c).isSome = true) →
      cs.foldl (fun acc c => acc.bind fun n => (digitVal36 c).map fun d => n * 36 + d) (some n)
        = some (cs.foldl (fun n c => n * 36 + (digitVal36 c).getD 0) n) := by
  intro cs
  induction cs with
  | nil => intro n _; rfl
  | cons c cs ih =>
    intro n h
    obtain ⟨d, hd⟩ := Option.isSome_iff_exists.mp (h c (List.mem_cons_self c cs))
    have hrest : ∀ c' ∈ cs, (digitVal36 c').isSome = true :=
      fun c' hc' => h c' (List.mem_cons_of_mem c hc')
    show List.foldl _ ((some n).bind fun m => (digitVal36 c).map fun d => m * 36 + d) cs = _
    rw [Option.some_bind, hd, Option.map_some']
    rw [ih (n * 36 + d) hrest]
    simp [hd]

/-- A single invalid digit makes the ParseUint loop fail. -/
theorem parseFold_invalid :
    ∀ (cs : List Char) (n : Nat), (∃ c ∈ cs, digitVal36 c = none) →
      cs.foldl (fun acc c => acc.bind fun n => (digitVal36 c).map fun d => n * 36 + d) (some n)
        = none := by
  intro cs
  induction cs with
  | nil => rintro n ⟨c, hc, _⟩; cases hc
  | cons c cs ih =>
    rintro n ⟨c', hc', hnone⟩
    rcases List.mem_cons.mp hc' with rfl | hmem
    · show List.foldl _ ((some n).bind fun m => (digitVal36 c').map fun d => m * 36 + d) cs = _
      rw [Option.some_bind, hnone, Option.map_none']
      exact parseFold_none cs
    · by_cases hv : digitVal36 c = none
      · show List.foldl _ ((some n).bind fun m => (digitVal36 c).map fun d => m * 36 + d) cs = _
        rw [Option.some_bind, hv, Option.map_none']
        exact parseFold_none cs
      · obtain ⟨d, hd⟩ := Option.ne_none_iff_exists'.mp hv
        show List.foldl _ ((some n).bind fun m => (digitVal36 c).map fun d => m * 36 + d) cs = _
        rw [Option.some_bind, hd, Option.map_some']
        exact ih (n * 36 + d) ⟨c', hmem, hnone⟩

/-- Every valid base-36 digit value is at most 35. -/
theorem digitVal36_le_35 (c : Char) (d : Nat) (h : digitVal36 c = some d) : d ≤ 35 := by
  unfold digitVal36 at h
  split at h
  · rename_i hr
    injection h with h'
    have h9 : c.toNat ≤ 57 := by
      have := UInt32.le_def.mp (Char.le_def.mp hr.2)
      simpa [Char.toNat] using this
    have h0 : Char.toNat '0' = 48 := rfl
    omega
  · split at h
    · rename_i _ hr
      injection h with h'
      have hz : c.toNat ≤ 122 := by
        have := UInt32.le_def.mp (Char.le_def.mp hr.2)
        simpa [Char.toNat] using this
      have ha : 97 ≤ c.toNat := by
        have := UInt32.le_def.mp (Char.le_def.mp hr.1)
        simpa [Char.toNat] using this
      have h0 : Char.toNat 'a' = 97 := rfl
      omega
    · split at h
      · rename_i _ _ hr
        injection h with h'
        have hz : c.toNat ≤ 90 := by
          have := UInt32.le_def.mp (Char.le_def.mp hr.2)
          simpa [Char.toNat] using this
        have ha : 65 ≤ c.toNat := by
          have := UInt32.le_def.mp (Char.le_def.mp hr.1)
          simpa [Char.toNat] using this
        have h0 : Char.toNat 'A' = 65 := rfl
        omega
      · cases h

/-- The base-36 fold of an all-valid digit string is bounded by base^length. -/
theorem parseFoldValue_bound :
    ∀ (cs : List Char) (n : Nat), (∀ c ∈ cs, (digitVal36 c).isSome = true) →
      cs.foldl (fun n c => n * 36 + (digitVal36 c).getD 0) n < (n + 1) * 36 ^ cs.length := by
  intro cs
  induction cs with
  | nil => intro n _; simp
  | cons c cs ih =>
    intro n h
    obtain ⟨d, hd⟩ := Option.isSome_iff_exists.mp (h c (List.mem_cons_self c cs))
    have hd35 : d ≤ 35 := digitVal36_le_35 c d hd
    have hrest : ∀ c' ∈ cs, (digitVal36 c').isSome = true :=
      fun c' hc' => h c' (List.mem_cons_of_mem c hc')
    have hstep := ih (n * 36 + (digitVal36 c).getD 0) hrest
    have hdval : (digitVal36 c).getD 0 = d := by rw [hd]; rfl
    calc List.foldl _ (n * 36 + (digitVal36 c).getD 0) cs
        < (n * 36 + (digitVal36 c).getD 0 + 1) * 36 ^ cs.length := hstep
      _ ≤ (n + 1) * 36 ^ (c :: cs).length := by
          rw [hdval]
          have : n * 36 + d + 1 ≤ (n + 1) * 36 := by omega
          calc (n * 36 + d + 1) * 36 ^ cs.length
              ≤ ((n + 1) * 36) * 36 ^ cs.length := Nat.mul_le_mul_right _ this
            _ = (n + 1) * 36 ^ (c :: cs).length := by
                rw [List.length_cons, pow_succ]
                ring

/-! ## Theorems for the claims -/

/-- C2: processRetryResponse returns (true, nil) whenever the HTTP status code
is in 200..299, regardless of err; when the status is not 2xx it returns
(false, nil) — suppressing the error so the backoff loop continues — exactly
when err is non-nil or the status code is in 400..599; in the remaining case
(non-2xx, nil err, status outside 400..599) it returns (true, err).  (The
remaining case also produces a nil error, so "(true, nil) exactly on 2xx" is
read as the guarantee for the success branch, the only reading consistent
with the claim's own fall-through clause.) -/
theorem processRetryResponse_cases (resp : ARResponse) (err : Option GoError) :
    (200 ≤ resp.statusCode ∧ resp.statusCode ≤ 299 →
      processRetryResponse resp err = (true, none)) ∧
    (¬(200 ≤ resp.statusCode ∧ resp.statusCode ≤ 299) →
      (processRetryResponse resp err = (false, none) ↔
        err ≠ none ∨ (400 ≤ resp.statusCode ∧ resp.statusCode ≤ 599))) ∧
    (¬(200 ≤ resp.statusCode ∧ resp.statusCode ≤ 299) → err = none →
      ¬(400 ≤ resp.statusCode ∧ resp.statusCode ≤ 599) →
      processRetryResponse resp err = (true, err)) := by
  have hsucc : isSuccessHTTPResponse resp = true ↔
      (200 ≤ resp.statusCode ∧ resp.statusCode ≤ 299) := by
    simp only [isSuccessHTTPResponse, Bool.and_eq_true, decide_eq_true_eq]
    omega
  have hretry : shouldRetryAPIRequest resp err = true ↔
      (err ≠ none ∨ (400 ≤ resp.statusCode ∧ resp.statusCode ≤ 599)) := by
    cases err with
    | none =>
      simp [shouldRetryAPIRequest]
      omega
    | some e =>
      simp [shouldRetryAPIRequest]
  have hsuccF : ¬(200 ≤ resp.statusCode ∧ resp.statusCode ≤ 299) →
      isSuccessHTTPResponse resp = false := by
    intro h
    cases hb : isSuccessHTTPResponse resp with
    | false => rfl
    | true => exact absurd (hsucc.mp hb) h
  have hretryF : ¬(err ≠ none ∨ (400 ≤ resp.statusCode ∧ resp.statusCode ≤ 599)) →
      shouldRetryAPIRequest resp err = false := by
    intro h
    cases hb : shouldRetryAPIRequest resp err with
    | false => rfl
    | true => exact absurd (hretry.mp hb) h
  refine ⟨?_, ?_, ?_⟩
  · intro h
    simp [processRetryResponse, hsucc.mpr h]
  · intro h
    have h1 : isSuccessHTTPResponse resp = false := hsuccF h
    constructor
    · intro hres
      by_contra hc
      have h2 : shouldRetryAPIRequest resp err = false := hretryF hc
      simp [processRetryResponse, h1, h2] at hres
    · intro hcond
      simp [processRetryResponse, h1, hretry.mpr hcond]
  · intro h he hrange
    have h1 : isSuccessHTTPResponse resp = false := hsuccF h
    have h2 : shouldRetryAPIRequest resp err = false := by
      apply hretryF
      rintro (hA | hB)
      · exact hA he
      · exact hrange hB
    simp [processRetryResponse, h1, h2]

/-- C2 witness: a 503 with a nil error is retried (result (false, nil)). -/
theorem processRetryResponse_cases_witness :
    processRetryResponse ⟨503⟩ none = (false, none) :=
  ((processRetryResponse_cases ⟨503⟩ none).2.1 (by decide)).mpr (Or.inr (by decide))

/-- C5: with CloudProviderBackoff disabled, requestBackoff yields Steps = 1
and any wait.ExponentialBackoff loop over it invokes its condition (the
wrapped SDK call) exactly once; with backoff enabled it returns
az.resourceRequestBackoff unchanged. -/
theorem requestBackoff_steps (az : CloudConfig) (cond : Nat → Bool × Option GoError) :
    (az.cloudProviderBackoff = false →
      (requestBackoff az).steps = 1 ∧ (exponentialBackoff (requestBackoff az) cond).2 = 1) ∧
    (az.cloudProviderBackoff = true → requestBackoff az = az.resourceRequestBackoff) := by
  constructor
  · intro h
    have hrb : requestBackoff az = { steps := 1 } := by simp [requestBackoff, h]
    refine ⟨by rw [hrb], ?_⟩
    rw [exponentialBackoff, hrb]
    show (expBackoffFrom cond 0 ((1 : Int).toNat)).2 = 1
    have : (1 : Int).toNat = 1 := rfl
    rw [this]
    show (if (cond 0).2.isSome || (cond 0).1 then ((cond 0).2, 1)
          else expBackoffFrom cond 1 0).2 = 1
    by_cases hc : ((cond 0).2.isSome || (cond 0).1) = true
    · simp [hc]
    · simp [hc, expBackoffFrom]
  · intro h
    simp [requestBackoff, h]

/-- C5 witness: a disabled-backoff configuration whose condition always fails
still runs it exactly once. -/
theorem requestBackoff_steps_witness :
    (requestBackoff ⟨false, { duration := 7, steps := 14 }⟩).steps = 1 ∧
    (exponentialBackoff (requestBackoff ⟨false, { duration := 7, steps := 14 }⟩)
      (fun _ => (false, none))).2 = 1 :=
  (requestBackoff_steps ⟨false, { duration := 7, steps := 14 }⟩ (fun _ => (false, none))).1 rfl

/-- C10: EnsureBackendPoolDeleted with a nil backendAddressPools pointer
returns nil immediately and invokes ensureScaleSetBackendPoolDeleted on no
scale set, whatever the configuration and environment. -/
theorem EnsureBackendPoolDeleted_nil_noop (env : SSEnv) (poolID vmSetName : String)
    (extract : String → Except GoError String) (deleteFn : String → Option GoError) :
    EnsureBackendPoolDeleted env poolID vmSetName none extract deleteFn = (none, []) := rfl

/-- C4 (code-bug exhibit): with the pool list [pool, x, pool] every entry
matching "pool" should be removed, leaving [x]; the in-place
append(existing[:i], existing[i+1:]...) slice aliasing instead updates the VM
with [x, pool] — a matching entry survives, contradicting the function's own
doc comment ("ensures the loadBalancer backendAddressPools deleted"). -/
theorem ensureBackendPoolDeletedFromNode_duplicate :
    ensureBackendPoolDeletedFromNode
      { networkInterfaceConfigurations := some [{ ipConfigurations :=
          [{ loadBalancerBackendAddressPools :=
              some [{ id := some "pool" }, { id := some "x" }, { id := some "pool" }] }] }] }
      "pool"
    = .ok (.update [{ id := some "x" }, { id := some "pool" }]) := rfl

/-- C7: getScaleSetVMInstanceID returns ErrorNotVmssInstance when the machine
name is shorter than 6 characters or some of its last 6 characters is not a
base-36 digit; otherwise it returns the decimal string of the base-36 value of
the last 6 characters (6 valid digits always fit in 64 bits, so ParseUint's
range check never fires). -/
theorem getScaleSetVMInstanceID_spec (s : String) :
    (s.length < 6 → getScaleSetVMInstanceID s = .error .notVmssInstance) ∧
    (6 ≤ s.length →
      ((∃ c ∈ s.data.drop (s.length - 6), digitVal36 c = none) →
        getScaleSetVMInstanceID s = .error .notVmssInstance) ∧
      ((∀ c ∈ s.data.drop (s.length - 6), (digitVal36 c).isSome = true) →
        getScaleSetVMInstanceID s =
          .ok (toString (base36Value (s.data.drop (s.length - 6)))))) := by
  have hlen : s.length = s.data.length := rfl
  constructor
  · intro h
    simp [getScaleSetVMInstanceID, h]
  · intro h6
    have hne : ¬(s.length < 6) := by omega
    have hdroplen : (s.data.drop (s.length - 6)).length = 6 := by
      rw [List.length_drop]
      omega
    have hnonempty : (String.mk (s.data.drop (s.length - 6))).data.isEmpty = false := by
      show (s.data.drop (s.length - 6)).isEmpty = false
      cases hd : s.data.drop (s.length - 6) with
      | nil => rw [hd] at hdroplen; cases hdroplen
      | cons a l => rfl
    constructor
    · intro hbad
      have hfold := parseFold_invalid (s.data.drop (s.length - 6)) 0 hbad
      have hparse : parseUint36 (String.mk (s.data.drop (s.length - 6))) = none := by
        rw [parseUint36, hnonempty]
        show (parseBase36Digits (s.data.drop (s.length - 6))).bind _ = none
        rw [parseBase36Digits, hfold]
        rfl
      simp [getScaleSetVMInstanceID, hne, hparse]
    · intro hall
      have hfold := parseFold_valid (s.data.drop (s.length - 6)) 0 hall
      have hbound : base36Value (s.data.drop (s.length - 6)) < 2 ^ 64 := by
        have h1 := parseFoldValue_bound (s.data.drop (s.length - 6)) 0 hall
        rw [hdroplen] at h1
        calc base36Value (s.data.drop (s.length - 6)) < (0 + 1) * 36 ^ 6 := h1
          _ < 2 ^ 64 := by norm_num
      have hparse : parseUint36 (String.mk (s.data.drop (s.length - 6))) =
          some (base36Value (s.data.drop (s.length - 6))) := by
        rw [parseUint36, hnonempty]
        show (parseBase36Digits (s.data.drop (s.length - 6))).bind _ =
          some (base36Value (s.data.drop (s.length - 6)))
        rw [parseBase36Digits, hfold]
        show (if base36Value (s.data.drop (s.length - 6)) < 2 ^ 64 then _ else none) = _
        rw [if_pos hbound]
        rfl
      simp [getScaleSetVMInstanceID, hne, hparse]

/-- C7 witness: "vmss000010" has 10 characters whose last 6, "000010", are
base-36 digits of value 36, so the instance ID is "36". -/
theorem getScaleSetVMInstanceID_spec_witness :
    6 ≤ "vmss000010".length ∧ getScaleSetVMInstanceID "vmss000010" = .ok "36" := by
  refine ⟨by decide, ?_⟩
  have h := ((getScaleSetVMInstanceID_spec "vmss000010").2 (by decide)).2 (by decide)
  rw [h]
  rfl

/-- One unfolding step of the backoff loop. -/
theorem expBackoffFrom_succ (cond : Nat → Bool × Option GoError) (i n : Nat) :
    expBackoffFrom cond i (n + 1) =
      if (cond i).2.isSome || (cond i).1 then ((cond i).2, i + 1)
      else expBackoffFrom cond (i + 1) n := rfl

/-- The loop of GetVirtualMachineWithRetry passes a nil error to every
invocation of the backoff, so the backoff result is nil or the timeout. -/
theorem expBackoffFrom_ok_or_timeout (attempts : Nat → Option GoError) :
    ∀ (rem i : Nat),
      (expBackoffFrom (fun j => ((attempts j).isNone, none)) i rem).1 = none ∨
      (expBackoffFrom (fun j => ((attempts j).isNone, none)) i rem).1 =
        some .waitTimeout := by
  intro rem
  induction rem with
  | zero => intro i; exact Or.inr rfl
  | succ n ih =>
    intro i
    rw [expBackoffFrom_succ]
    by_cases hc : (attempts i).isNone
    · simp [hc]
    · simpa [hc] using ih (i + 1)

/-- When every attempt in the window fails, the backoff loop exhausts its
steps and reports the timeout after exactly rem invocations. -/
theorem expBackoffFrom_all_fail (attempts : Nat → Option GoError) :
    ∀ (rem i : Nat), (∀ j, j < rem → (attempts (i + j)).isSome = true) →
      expBackoffFrom (fun j => ((attempts j).isNone, none)) i rem =
        (some .waitTimeout, i + rem) := by
  intro rem
  induction rem with
  | zero => intro i _; rfl
  | succ n ih =>
    intro i h
    have h0 : (attempts i).isSome = true := by simpa using h 0 (Nat.succ_pos n)
    have hne : (attempts i).isNone = false := by
      rw [Option.isNone_eq_false_iff, Option.isSome_iff_ne_none] at *
      exact h0
    have hrest : ∀ j, j < n → (attempts (i + 1 + j)).isSome = true := by
      intro j hj
      have := h (j + 1) (by omega)
      have harith : i + (j + 1) = i + 1 + j := by omega
      rwa [harith] at this
    rw [expBackoffFrom_succ]
    simp only [Option.isSome_none, Bool.false_or, hne, Bool.false_eq_true, if_false]
    rw [ih (i + 1) hrest]
    have harith2 : i + 1 + n = i + (n + 1) := by omega
    rw [harith2]

/-- C8: GetVirtualMachineWithRetry never surfaces wait.ErrWaitTimeout
(provided the wrapped az.getVirtualMachine never itself returns that exact
sentinel, which it cannot: its errors come from the VM cache and the Azure
SDK); and when every one of the Steps = n+1 attempts fails, the returned
error is the most recent attempt's error, substituted for the timeout. -/
theorem GetVirtualMachineWithRetry_no_timeout (az : CloudConfig)
    (attempts : Nat → Option GoError)
    (hnt : ∀ i, attempts i ≠ some GoError.waitTimeout) :
    GetVirtualMachineWithRetry az attempts ≠ some GoError.waitTimeout ∧
    (∀ n, (requestBackoff az).steps.toNat = n + 1 →
      (∀ i, i ≤ n → (attempts i).isSome = true) →
      GetVirtualMachineWithRetry az attempts = attempts n) := by
  constructor
  · show (if _ = some GoError.waitTimeout then _ else _) ≠ some GoError.waitTimeout
    rcases expBackoffFrom_ok_or_timeout attempts (requestBackoff az).steps.toNat 0 with h | h
    · rw [exponentialBackoff] at *
      rw [if_neg (by rw [h]; exact fun hc => Option.noConfusion hc)]
      rw [h]
      exact fun hc => Option.noConfusion hc
    · rw [exponentialBackoff] at *
      rw [if_pos h]
      cases hn : (expBackoffFrom (fun j => ((attempts j).isNone, none)) 0
          (requestBackoff az).steps.toNat).2 with
      | zero => exact fun hc => Option.noConfusion hc
      | succ m => exact hnt m
  · intro n hsteps hfail
    have hrun := expBackoffFrom_all_fail attempts (n + 1) 0
      (fun j hj => by simpa using hfail j (by omega))
    show (if _ = some GoError.waitTimeout then _ else _) = attempts n
    rw [exponentialBackoff, hsteps, hrun]
    simp

/-- C8 witness: backoff disabled (one step), the single attempt failing with a
non-timeout error; that error is returned. -/
theorem GetVirtualMachineWithRetry_no_timeout_witness :
    GetVirtualMachineWithRetry ⟨false, { duration := 0, steps := 0 }⟩
        (fun _ => some (.other "boom")) ≠ some GoError.waitTimeout ∧
    GetVirtualMachineWithRetry ⟨false, { duration := 0, steps := 0 }⟩
        (fun _ => some (.other "boom")) = some (.other "boom") := by
  have h := GetVirtualMachineWithRetry_no_timeout ⟨false, { duration := 0, steps := 0 }⟩
    (fun _ => some (.other "boom")) (fun i => by simp)
  exact ⟨h.1, h.2 0 rfl (fun i _ => rfl)⟩

/-- C1 counterexample: for the node name "vm" (shorter than 6 characters) and
a populated cache without an entry for it, getVmssVM returns
ErrorNotVmssInstance — not cloudprovider.InstanceNotFound — and runs the
cached getter zero times instead of once: the claim's "for every node name"
fails on names rejected by getScaleSetVMInstanceID. -/
theorem getVmssVM_short_name_no_refresh :
    getVmssVM "vm" (some []) (fun _ => .ok []) =
      (("", "", none, some .notVmssInstance), 0) ∧
    GoError.notVmssInstance ≠ GoError.instanceNotFound :=
  ⟨rfl, by decide⟩

/-- C1 (amended to node names accepted by getScaleSetVMInstanceID):
getVmssVM reads the map cached under the single key vmssVirtualMachinesKey; a
hit returns the entry without touching the cached getter; on a miss it deletes
that key and re-runs the cached getter exactly once (the getter-run count is 1
from a populated cache, 1 + 1 from an empty one), and if the entry is still
absent it returns cloudprovider.InstanceNotFound with empty scale-set name and
empty instance ID. -/
theorem getVmssVM_refresh_on_miss (nodeName : String) (st0 : Option NodeMap)
    (refresh : Nat → Except GoError NodeMap) (instanceID : String)
    (hvalid : getScaleSetVMInstanceID nodeName = .ok instanceID) :
    (∀ m1 entry vm, st0 = some m1 → mapLoad m1 nodeName = some entry →
      entry.virtualMachine = some vm →
      getVmssVM nodeName st0 refresh =
        ((entry.vmssName, entry.instanceID, some vm, none), 0)) ∧
    (∀ m1 m2, st0 = some m1 → mapLoad m1 nodeName = none →
      refresh 0 = .ok m2 → mapLoad m2 nodeName = none →
      getVmssVM nodeName st0 refresh = (("", "", none, some .instanceNotFound), 1)) ∧
    (∀ m1 m2, st0 = none → refresh 0 = .ok m1 → mapLoad m1 nodeName = none →
      refresh 1 = .ok m2 → mapLoad m2 nodeName = none →
      getVmssVM nodeName st0 refresh =
        (("", "", none, some .instanceNotFound), 1 + 1)) := by
  refine ⟨?_, ?_, ?_⟩
  · intro m1 entry vm hst hload hvm
    subst hst
    simp [getVmssVM, hvalid, hload, hvm]
  · intro m1 m2 hst hload hre hload2
    subst hst
    simp [getVmssVM, hvalid, hload, hre, hload2]
  · intro m1 m2 hst hre1 hload hre2 hload2
    subst hst
    simp [getVmssVM, hvalid, hre1, hload, hre2, hload2]

/-- C1 witness: a valid scale-set node name missing from the cache before and
after the refresh yields InstanceNotFound with empty names after exactly one
getter re-run. -/
theorem getVmssVM_refresh_on_miss_witness :
    getScaleSetVMInstanceID "vmss000001" = .ok "1" ∧
    getVmssVM "vmss000001" (some []) (fun _ => .ok []) =
      (("", "", none, some .instanceNotFound), 1) := by
  refine ⟨rfl, ?_⟩
  exact (getVmssVM_refresh_on_miss "vmss000001" (some []) (fun _ => .ok []) "1" rfl).2.1
    [] [] rfl rfl rfl rfl

/-- C9: when the scale-set VM is found but its InstanceView, or the
InstanceView's Statuses, is nil, GetPowerStatusByNodeName returns the power
state "stopped" with a nil error; when statuses are present, the first status
code bearing the power-state marker is returned with that marker stripped
(findPowerState), again with a nil error. -/
theorem GetPowerStatusByNodeName_spec (name : String) (st0 : Option NodeMap)
    (refresh : Nat → Except GoError NodeMap) (ssName iid : String) (vm : VMSSVM)
    (hfound : (getVmssVM name st0 refresh).1 = (ssName, iid, some vm, none)) :
    (vm.instanceView = none →
      GetPowerStatusByNodeName name st0 refresh = ("stopped", none)) ∧
    (∀ instanceView, vm.instanceView = some instanceView → instanceView.statuses = none →
      GetPowerStatusByNodeName name st0 refresh = ("stopped", none)) ∧
    (∀ instanceView statuses state, vm.instanceView = some instanceView →
      instanceView.statuses = some statuses → findPowerState statuses = some state →
      GetPowerStatusByNodeName name st0 refresh = (state, none)) := by
  refine ⟨?_, ?_, ?_⟩
  · intro hiv
    simp [GetPowerStatusByNodeName, hfound, hiv, vmPowerStateStopped]
  · intro instanceView hiv hst
    simp [GetPowerStatusByNodeName, hfound, hiv, hst, vmPowerStateStopped]
  · intro instanceView statuses state hiv hst hfind
    simp [GetPowerStatusByNodeName, hfound, hiv, hst, hfind]

/-- C9 witness: a cached VM with a nil InstanceView reports "stopped" without
an error, and one with a PowerState/running status reports "running". -/
theorem GetPowerStatusByNodeName_spec_witness :
    GetPowerStatusByNodeName "vmss000001" (some [("vmss000001", { vmssName := "ss1", instanceID := "1", virtualMachine := some { instanceView := none } })]) (fun _ => .ok []) = ("stopped", none) ∧
    GetPowerStatusByNodeName "vmss000001" (some [("vmss000001", { vmssName := "ss1", instanceID := "1", virtualMachine := some { instanceView := some { statuses := some [{ code := some "ProvisioningState/succeeded" }, { code := some "PowerState/running" }] } } })]) (fun _ => .ok []) = ("running", none) := by
  constructor
  · exact (GetPowerStatusByNodeName_spec "vmss000001" (some [("vmss000001", { vmssName := "ss1", instanceID := "1", virtualMachine := some { instanceView := none } })]) (fun _ => .ok []) "ss1" "1" { instanceView := none } rfl).1 rfl
  · exact ((GetPowerStatusByNodeName_spec "vmss000001" (some [("vmss000001", { vmssName := "ss1", instanceID := "1", virtualMachine := some { instanceView := some { statuses := some [{ code := some "ProvisioningState/succeeded" }, { code := some "PowerState/running" }] } } })]) (fun _ => .ok []) "ss1" "1" { instanceView := some { statuses := some [{ code := some "ProvisioningState/succeeded" }, { code := some "PowerState/running" }] } } rfl).2.2 { statuses := some [{ code := some "ProvisioningState/succeeded" }, { code := some "PowerState/running" }] } [{ code := some "ProvisioningState/succeeded" }, { code := some "PowerState/running" }] "running" rfl rfl rfl)

/-- C3 counterexample: basic-SKU load balancer, vmSetName "other" different
from the VM's scale set "agentpool1", and a primary IP configuration with no
pool matching "poolA": the claim demands that exactly one SubResource be
appended and the VM updated, but EnsureHostInPool returns nil without
updating (the scale-set name check short-circuits). -/
theorem EnsureHostInPool_skips_mismatched_vmss :
    EnsureHostInPool ⟨false, false⟩ false "agentpool1"
      { networkInterfaceConfigurations :=
          some [{ ipConfigurations := [{ loadBalancerBackendAddressPools := some [] }] }] }
      "poolA" "other" (fun _ _ => .ok (true, "")) = .ok .noUpdate ∧
    (Except.ok (UpdateAction.update [{ id := some "poolA" }]) :
        Except GoError UpdateAction) ≠ .ok .noUpdate :=
  ⟨rfl, by simp⟩

/-- C3 (amended): under a fixed primary IP configuration (network interface
configurations present, primary NIC and primary IP configuration lookups
succeeding, dual-stack disabled, and pool IDs non-nil, as a nil ID would
panic in Go): if the configuration's pools already contain an entry whose ID
equals backendPoolID case-insensitively, EnsureHostInPool returns nil with no
VM update; if no entry matches AND the basic-LB scale-set-name check passes
(vmSetName empty, or standard LB, or vmSetName equals the VM's scale set) AND
for a standard LB with non-empty pools isBackendPoolOnSameLB reports the same
load balancer, it appends exactly one SubResource carrying backendPoolID and
updates the VM with it. -/
theorem EnsureHostInPool_idempotent_add (env : SSEnv) (svcIPv6 : Bool)
    (ssName : String) (vm : VMSSVM) (backendPoolID vmSetName : String)
    (sameLB : String → List String → Except GoError (Bool × String))
    (nics : List VMSSNetworkConfiguration) (primaryNIC : VMSSNetworkConfiguration)
    (cfg : VMSSIPConfiguration) (pools : List SubResource)
    (hnics : vm.networkInterfaceConfigurations = some nics)
    (hnic : getPrimaryNetworkInterfaceConfiguration nics = .ok primaryNIC)
    (hds : env.ipv6DualStackEnabled = false)
    (hcfg : getPrimaryIPConfigFromVMSSNetworkConfig primaryNIC = .ok cfg)
    (hpools : cfg.loadBalancerBackendAddressPools.getD [] = pools)
    (_hids : ∀ p ∈ pools, p.id ≠ none) :
    ((∃ p ∈ pools, equalFold backendPoolID (p.id.getD "") = true) →
      EnsureHostInPool env svcIPv6 ssName vm backendPoolID vmSetName sameLB =
        .ok .noUpdate) ∧
    ((∀ p ∈ pools, equalFold backendPoolID (p.id.getD "") = false) →
      (vmSetName = "" ∨ env.useStandardLoadBalancer = true ∨
        equalFold vmSetName ssName = true) →
      (env.useStandardLoadBalancer = true → pools ≠ [] →
        ∃ oldLBName, sameLB backendPoolID (pools.filterMap SubResource.id) =
          .ok (true, oldLBName)) →
      EnsureHostInPool env svcIPv6 ssName vm backendPoolID vmSetName sameLB =
        .ok (.update (pools ++ [{ id := some backendPoolID }]))) := by
  by_cases hskip : vmSetName ≠ "" ∧ ¬env.useStandardLoadBalancer ∧
      ¬(equalFold vmSetName ssName)
  · constructor
    · intro _
      simp only [EnsureHostInPool, if_pos hskip]
    · intro _ hpass _
      exfalso
      rcases hpass with h | h | h
      · exact hskip.1 h
      · rw [h] at hskip; exact hskip.2.1 (by simp)
      · rw [h] at hskip; exact hskip.2.2 (by simp)
  · have hbody : EnsureHostInPool env svcIPv6 ssName vm backendPoolID vmSetName sameLB =
        (if pools.any (fun p => equalFold backendPoolID (p.id.getD "")) then .ok .noUpdate
         else if env.useStandardLoadBalancer ∧ 0 < pools.length then
           match sameLB backendPoolID (pools.filterMap SubResource.id) with
           | .error e => .error e
           | .ok (isSameLB, _) =>
             if ¬isSameLB then .ok .noUpdate
             else .ok (.update (pools ++ [{ id := some backendPoolID }]))
         else .ok (.update (pools ++ [{ id := some backendPoolID }]))) := by
      simp only [EnsureHostInPool, if_neg hskip, hnics, hnic, hds, Bool.false_eq_true,
        not_false_iff, if_true, hcfg, hpools]
    constructor
    · intro hfound
      rw [hbody, if_pos (List.any_eq_true.mpr (by
        obtain ⟨p, hp, hq⟩ := hfound
        exact ⟨p, hp, hq⟩))]
    · intro hnone _ hsame
      have hany : pools.any (fun p => equalFold backendPoolID (p.id.getD "")) = false := by
        rw [List.any_eq_false]
        intro p hp
        rw [hnone p hp]
        simp
      rw [hbody, hany]
      simp only [Bool.false_eq_true, if_false]
      by_cases hstd : env.useStandardLoadBalancer ∧ 0 < pools.length
      · obtain ⟨old, hold⟩ := hsame hstd.1 (by
          intro hnil
          rw [hnil] at hstd
          simp at hstd)
        rw [if_pos hstd, hold]
        simp
      · rw [if_neg hstd]

/-- C3 witness: a pool list already containing "pool" matched
case-insensitively by "POOL" yields nil and no update. -/
theorem EnsureHostInPool_idempotent_add_witness :
    EnsureHostInPool ⟨false, false⟩ false "ss"
      { networkInterfaceConfigurations :=
          some [{ ipConfigurations :=
            [{ loadBalancerBackendAddressPools := some [{ id := some "pool" }] }] }] }
      "POOL" "" (fun _ _ => .ok (true, "")) = .ok .noUpdate := by
  exact (EnsureHostInPool_idempotent_add ⟨false, false⟩ false "ss"
      { networkInterfaceConfigurations :=
          some [{ ipConfigurations :=
            [{ loadBalancerBackendAddressPools := some [{ id := some "pool" }] }] }] }
      "POOL" "" (fun _ _ => .ok (true, ""))
      [{ ipConfigurations :=
          [{ loadBalancerBackendAddressPools := some [{ id := some "pool" }] }] }]
      { ipConfigurations := [{ loadBalancerBackendAddressPools := some [{ id := some "pool" }] }] }
      { loadBalancerBackendAddressPools := some [{ id := some "pool" }] }
      [{ id := some "pool" }]
      rfl rfl rfl rfl rfl (by decide)).1
    ⟨{ id := some "pool" }, by decide, by decide⟩

/-- The accumulator form of the page loop agrees with the claim-side direct
recursion: the loop's result is the spec result with the accumulated entries
prepended. -/
theorem listLBLoop_eq_spec :
    ∀ (nexts : List FetchOutcome) (acc : List LoadBalancer) (page : LBListResult),
      listLBLoop nexts acc page =
        (lbPagesSpec nexts page).map fun r => (acc ++ r.1, r.2) := by
  intro nexts
  induction nexts with
  | nil =>
    intro acc page
    rcases page with ⟨v, nl⟩
    rcases v with _ | ⟨_ | ⟨a, l⟩⟩ <;> rcases nl with _ | nl <;>
      simp [listLBLoop, lbPagesSpec]
  | cons o rest ih =>
    intro acc page
    rcases page with ⟨v, nl⟩
    rcases v with _ | ⟨_ | ⟨a, l⟩⟩ <;> rcases nl with _ | nl <;>
      simp only [listLBLoop, lbPagesSpec, Option.map_some', List.append_nil,
        Option.map_none']
    all_goals try simp
    rcases o with ⟨q⟩ | ⟨e⟩
    · show listLBLoop rest (acc ++ (a :: l)) q = _
      rw [ih]
      rcases hq : lbPagesSpec rest q with _ | ⟨r⟩ <;> simp [hq]
    · simp

/-- C6: ListLBWithRetry returns exactly the claim-side description
(ListLBWithRetrySpec): the concatenation, in order, of the Value entries of
the first page and of every page reached by following NextLink, stopping at a
page with nil or empty Value or no NextLink; when a later fetch fails, the
load balancers accumulated so far are returned with that error, and a failed
initial List returns the empty (nil) slice with its error. -/
theorem ListLBWithRetry_matches_spec (first : FetchOutcome) (nexts : List FetchOutcome) :
    ListLBWithRetry first nexts = ListLBWithRetrySpec first nexts := by
  rcases first with ⟨page⟩ | ⟨e⟩
  · show listLBLoop nexts [] page = lbPagesSpec nexts page
    rw [listLBLoop_eq_spec]
    rcases h : lbPagesSpec nexts page with _ | ⟨r⟩ <;> simp
  · rfl

end AzureCP
